import Mathlib

/-!
Shallow embedding of the sales aggregation and comparative-analytics engine
of the Preetos sales-analysis bot (`telegram_bot.py`).

Cells are strings, a ledger row is a list of cell strings, monetary values
are rationals, and calendar dates are integers (day numbers); the textual
date-format expansion (`strftime`) is abstracted as a parameter
`fmt : ℤ → List String` since every window in the source is built by pure
day/week arithmetic on `datetime` values before formatting.
-/

namespace Preetos

/-- Substring test on character lists: `startsWithB hay needle` is true iff
`needle` is a prefix of `hay` (mirrors Python `str.startswith` used to build
the `in` membership test). -/
def startsWithB : List Char → List Char → Bool
  | _, [] => true
  | [], _ :: _ => false
  | a :: as, b :: bs => a == b && startsWithB as bs

/-- `subListB hay needle` is true iff `needle` occurs as a contiguous
substring of `hay`; this models the Python `needle in hay` operator. -/
def subListB : List Char → List Char → Bool
  | [], needle => needle.isEmpty
  | c :: t, needle => startsWithB (c :: t) needle || subListB t needle

/-- `containsSubB hay needle`: Python `needle in hay` on strings. -/
def containsSubB (hay needle : String) : Bool :=
  subListB hay.data needle.data

/-- Remove leading and trailing whitespace from a character list. -/
def trimChars (l : List Char) : List Char :=
  ((l.dropWhile Char.isWhitespace).reverse.dropWhile Char.isWhitespace).reverse

/-- Python `str.strip()`. -/
def strTrim (s : String) : String :=
  String.mk (trimChars s.data)

/-- Characters matched by the price-scanning regex `[0-9.,]+`. -/
def isNumChar (c : Char) : Bool := c.isDigit || c == '.' || c == ','

/-- First maximal run of `[0-9.,]` characters in a character list:
`re.findall(r'[0-9.,]+', s)[0]` (empty when there is no run). -/
def firstNumRun (l : List Char) : List Char :=
  (l.dropWhile (fun c => !(isNumChar c))).takeWhile isNumChar

/-- Numeric value of a digit string (used for `int(...)` on a digit-only
cell and for the parts of a decimal literal). -/
def digitsToNat (l : List Char) : Nat :=
  l.foldl (fun n c => n * 10 + (c.toNat - 48)) 0

/-- Python `float(clean)` on a comma-stripped run: the literal is valid iff
it has at least one digit and at most one dot; its value is
`intPart + fracPart / 10 ^ (#frac digits)`.  `none` models `ValueError`. -/
def parseDecimal (l : List Char) : Option ℚ :=
  if l.any Char.isDigit ∧ l.countP (fun c => c == '.') ≤ 1 then
    let intPart := l.takeWhile (fun c => !(c == '.'))
    let fracPart := (l.dropWhile (fun c => !(c == '.'))).drop 1
    some ((digitsToNat intPart : ℚ) + (digitsToNat fracPart : ℚ) / (10 : ℚ) ^ fracPart.length)
  else
    none

/-- Tolerant price parsing: empty/falsy cell yields 0; otherwise take the
first `[0-9.,]+` run, strip the commas, parse as a decimal; any failure
(no run, invalid literal) yields 0.  Mirrors the `try`-guarded
`re.findall` / `float` block used at every price-reading site. -/
def parsePrice (s : String) : ℚ :=
  if s = "" then 0
  else
    let run := firstNumRun s.data
    if run = [] then 0
    else
      match parseDecimal (run.filter (fun c => !(c == ','))) with
      | some q => q
      | none => 0

/-- Cell access `row[i]`, defaulting to the empty string out of range
(the source always guards indexing with `i < len(row)`, and a failed guard
produces a falsy/empty value). -/
def cellAt (row : List String) (i : Nat) : String := row.getD i ""

/-- Column-index configuration resolved from the header row (with the fixed
positional defaults 2/3/7/8/27 when a named column is absent). -/
structure ColConfig where
  dateCol : Nat
  nameCol : Nat
  payCol : Nat
  delivCol : Nat
  priceCol : Nat
deriving DecidableEq, Repr

/-- The default positional configuration (Order Date 2, Name 3,
Status Payment 7, Status (Delivery) 8, Price 27). -/
def defaultCols : ColConfig := ⟨2, 3, 7, 8, 27⟩

/-- Row validity: at least 12 cells, and at least one of the date cell
(index 2), name cell (index 3) and free-text summary cell (index 11) is
non-empty after trimming.  Mirrors the `len(row) <= 11` skip followed by
the `has_date or has_name or has_summary` check. -/
def isCandidateOrder (row : List String) : Bool :=
  decide (11 < row.length) &&
    (!(strTrim (cellAt row 2) == "") || !(strTrim (cellAt row 3) == "") ||
      !(strTrim (cellAt row 11) == ""))

/-- Date matching: the trimmed ledger date equals a target format exactly,
or the target is a substring of the trimmed ledger date, or the trimmed
ledger date is a substring of the target. -/
def dateMatches (orderDate : String) (targets : List String) : Bool :=
  let d := strTrim orderDate
  targets.any (fun t => d == t || containsSubB d t || containsSubB t d)

/-- Customer name: the trimmed name cell when the raw cell is non-empty,
otherwise the sentinel `"Unknown Customer"`. -/
def customerName (cols : ColConfig) (row : List String) : String :=
  if cellAt row cols.nameCol ≠ "" then strTrim (cellAt row cols.nameCol)
  else "Unknown Customer"

/-- Payment-status text: the trimmed status cell when the raw cell is
non-empty, otherwise `"Unpaid"`. -/
def paymentStatus (cols : ColConfig) (row : List String) : String :=
  if cellAt row cols.payCol ≠ "" then strTrim (cellAt row cols.payCol)
  else "Unpaid"

/-- An order is paid iff its payment-status text contains `"Paid"`. -/
def isPaid (cols : ColConfig) (row : List String) : Bool :=
  containsSubB (paymentStatus cols row) "Paid"

/-- Delivery-status text, defaulting to `"Pending"`. -/
def deliveryStatus (cols : ColConfig) (row : List String) : String :=
  if cellAt row cols.delivCol ≠ "" then strTrim (cellAt row cols.delivCol)
  else "Pending"

/-- Only the literal `"Delivered"` counts as delivered. -/
def isDelivered (cols : ColConfig) (row : List String) : Bool :=
  deliveryStatus cols row == "Delivered"

/-- A category-count cell contributes its integer value only when, after
trimming, it is a non-empty all-digit string; otherwise 0
(`int(row[c]) if str(row[c]).strip().isdigit() else 0`). -/
def countCell (row : List String) (i : Nat) : Nat :=
  let s := strTrim (cellAt row i)
  if i < row.length ∧ s ≠ "" ∧ s.data.all Char.isDigit then digitsToNat s.data
  else 0

/-- Per-category totals for one product group
(`{'Cheese': _, 'Sour Cream': _, 'BBQ': _, 'Original': _}`). -/
structure Counts4 where
  cheese : Nat
  sourCream : Nat
  bbq : Nat
  original : Nat
deriving DecidableEq, Repr

/-- All-zero category totals. -/
def Counts4.zero : Counts4 := ⟨0, 0, 0, 0⟩

/-- Add one row's four count cells (at columns `i0..i3`) to the totals. -/
def addCounts (c : Counts4) (row : List String) (i0 i1 i2 i3 : Nat) : Counts4 :=
  ⟨c.cheese + countCell row i0, c.sourCream + countCell row i1,
   c.bbq + countCell row i2, c.original + countCell row i3⟩

/-- Pouch group: fixed columns N, O, P, Q (13–16). -/
def addPouches (c : Counts4) (row : List String) : Counts4 :=
  addCounts c row 13 14 15 16

/-- Tub group: fixed columns T, U, V, W (19–22). -/
def addTubs (c : Counts4) (row : List String) : Counts4 :=
  addCounts c row 19 20 21 22

/-- The running aggregation state of one period report: every accumulator
initialised before the row scan of `sales_today_command` /
`analyze_sales_for_dates`. -/
structure PeriodMetrics where
  orders : List (List String)
  total_revenue : ℚ
  paid_revenue : ℚ
  unpaid_revenue : ℚ
  customers : Finset String
  pouches : Counts4
  tubs : Counts4
  paid_pouches : Counts4
  paid_tubs : Counts4
  paid_customers : List String
  unpaid_customers : List String
  undelivered : List String
deriving DecidableEq

/-- The empty aggregation state. -/
def initMetrics : PeriodMetrics :=
  ⟨[], 0, 0, 0, ∅, Counts4.zero, Counts4.zero, Counts4.zero, Counts4.zero, [], [], []⟩

/-- One iteration of the aggregation loop: skip the row unless it is a
valid candidate order whose date cell matches the target date formats;
otherwise fold it into every accumulator exactly as the source loop does. -/
def aggRow (cols : ColConfig) (targets : List String) (m : PeriodMetrics)
    (row : List String) : PeriodMetrics :=
  if isCandidateOrder row && dateMatches (cellAt row cols.dateCol) targets then
    let name := customerName cols row
    let price := parsePrice (cellAt row cols.priceCol)
    let paid := isPaid cols row
    { orders := m.orders ++ [row]
      total_revenue := m.total_revenue + price
      paid_revenue := m.paid_revenue + (if paid then price else 0)
      unpaid_revenue := m.unpaid_revenue + (if paid then 0 else price)
      customers := insert name m.customers
      pouches := addPouches m.pouches row
      tubs := addTubs m.tubs row
      paid_pouches := if paid then addPouches m.paid_pouches row else m.paid_pouches
      paid_tubs := if paid then addTubs m.paid_tubs row else m.paid_tubs
      paid_customers := if paid then m.paid_customers ++ [name] else m.paid_customers
      unpaid_customers := if paid then m.unpaid_customers else m.unpaid_customers ++ [name]
      undelivered := if isDelivered cols row then m.undelivered else m.undelivered ++ [name] }
  else m

/-- The full period aggregation: fold every ledger row into the metrics. -/
def aggregatePeriod (cols : ColConfig) (targets : List String)
    (rows : List (List String)) : PeriodMetrics :=
  rows.foldl (aggRow cols targets) initMetrics

/-- `calculate_revenue_for_dates`: total parsed price of the valid,
date-matching rows whose payment status contains `"Paid"`. -/
def calculateRevenueForDates (cols : ColConfig) (rows : List (List String))
    (targets : List String) : ℚ :=
  rows.foldl
    (fun acc row =>
      if isCandidateOrder row && dateMatches (cellAt row cols.dateCol) targets
          && isPaid cols row then
        acc + parsePrice (cellAt row cols.priceCol)
      else acc) 0

/-- A day "has orders" when some valid row's date cell matches that day's
format list (`day_has_orders` in the trailing-average loops). -/
def dayHasOrders (cols : ColConfig) (rows : List (List String))
    (targets : List String) : Bool :=
  rows.any (fun row =>
    isCandidateOrder row && dateMatches (cellAt row cols.dateCol) targets)

/-- `calculate_7_day_average`: walk the last 7 calendar days (current day
included, `now - k` for `k < 7`); a day contributes its paid revenue and
increments the day count only when it has at least one matching order;
the result is `sum / count`, or 0 when no day contributed.  The textual
date-format expansion is abstracted as `fmt`. -/
def calculate7DayAverage (fmt : ℤ → List String) (cols : ColConfig)
    (rows : List (List String)) (now : ℤ) : ℚ :=
  let r := (List.range 7).foldl
    (fun (acc : ℚ × Nat) (k : Nat) =>
      let targets := fmt (now - (k : ℤ))
      if dayHasOrders cols rows targets then
        (acc.1 + calculateRevenueForDates cols rows targets, acc.2 + 1)
      else acc) (0, 0)
  if r.2 > 0 then r.1 / (r.2 : ℚ) else 0

/-- The `if revenue > 0: rolling_revenues.append(revenue)` loop: keep only
the positive candidate values, in order. -/
def collectPositive (l : List ℚ) : List ℚ :=
  l.foldl (fun acc r => if r > 0 then acc ++ [r] else acc) []

/-- `sum(rolling_revenues) / len(rolling_revenues) if rolling_revenues
else 0`: the average of the positive candidate window revenues. -/
def posAvg (l : List ℚ) : ℚ :=
  let p := collectPositive l
  if p.length > 0 then p.sum / (p.length : ℚ) else 0

/-- `extend`ing the date-format lists of `len` consecutive days starting at
`start` (the `for i in range(n): dates.extend(get_date_formats(...))`
pattern). -/
def windowFormats (fmt : ℤ → List String) (start : ℤ) (len : Nat) : List String :=
  (List.range len).foldl (fun acc (i : Nat) => acc ++ fmt (start + (i : ℤ))) []

/-- The final loop of `get_contextual_performance` (the percentage-diff
attachment): only entered when `current_revenue > 0`, and then a
`<key>_diff` entry is appended for every numeric entry whose value is
positive. -/
def attachDiffs (current : ℚ) (bs : List (String × ℚ)) : List (String × ℚ) :=
  if current > 0 then
    bs ++ (bs.filter (fun kv => kv.2 > 0)).map
      (fun kv => (kv.1 ++ "_diff", (current - kv.2) / kv.2 * 100))
  else bs

/-- Result of `get_contextual_performance`: the `context` tag, the numeric
baseline entries in insertion order (diff entries included), and the
`note` entry when present. -/
structure PerfData where
  context : String
  baselines : List (String × ℚ)
  note : Option String
deriving DecidableEq

/-- `get_contextual_performance`: classify the requested date list by its
length and compute the matching baseline set; dates are day numbers, the
format expansion is `fmt`, and `now` is the current Philippine-time day
(used only by the trailing 7-day average). -/
def getContextualPerformance (fmt : ℤ → List String) (cols : ColConfig)
    (rows : List (List String)) (now : ℤ) (dates : List ℤ)
    (current_revenue : ℚ) : PerfData :=
  let L := dates.length
  let pd : PerfData :=
    if L = 1 then
      let target := dates.headD 0
      let sevenDayAvg := calculate7DayAverage fmt cols rows now
      let lastWeekRevenue := calculateRevenueForDates cols rows (fmt (target - 7))
      let weekdayAvg := posAvg ((List.range 4).map (fun (i : Nat) =>
        calculateRevenueForDates cols rows (fmt (target - 7 * ((i : ℤ) + 1)))))
      ⟨"single_day",
       [("seven_day_avg", sevenDayAvg), ("last_week_same_day", lastWeekRevenue),
        ("weekday_pattern_avg", weekdayAvg)], none⟩
    else if 2 ≤ L ∧ L ≤ 13 then
      let start := dates.headD 0
      let prevRevenue :=
        calculateRevenueForDates cols rows (windowFormats fmt (start - L) L)
      let rollingAvg := posAvg ((List.range 4).map (fun (w : Nat) =>
        calculateRevenueForDates cols rows
          (windowFormats fmt (start - 7 * ((w : ℤ) + 1)) L)))
      let lastMonthRevenue :=
        calculateRevenueForDates cols rows (windowFormats fmt (start - 30) L)
      ⟨"short_range",
       [("previous_period", prevRevenue), ("rolling_avg", rollingAvg),
        ("same_period_last_month", lastMonthRevenue)], none⟩
    else if L = 14 then
      let start := dates.headD 0
      let prev2WeekRevenue :=
        calculateRevenueForDates cols rows (windowFormats fmt (start - 14) 14)
      let rollingAvg := posAvg ((List.range 4).map (fun (p : Nat) =>
        calculateRevenueForDates cols rows
          (windowFormats fmt (start - 14 * ((p : ℤ) + 1)) 14)))
      let lastMonthRevenue :=
        calculateRevenueForDates cols rows (windowFormats fmt (start - 30) 14)
      ⟨"two_weeks",
       [("previous_2_weeks", prev2WeekRevenue), ("rolling_8week_avg", rollingAvg),
        ("same_2weeks_last_month", lastMonthRevenue)], none⟩
    else if 15 ≤ L ∧ L ≤ 32 then
      let start := dates.headD 0
      let prevMonthRevenue :=
        calculateRevenueForDates cols rows (windowFormats fmt (start - L) L)
      let quarterlyAvg := posAvg ((List.range 3).map (fun (mo : Nat) =>
        calculateRevenueForDates cols rows
          (windowFormats fmt (start - L * ((mo : ℤ) + 1)) L)))
      let lastYearRevenue :=
        calculateRevenueForDates cols rows (windowFormats fmt (start - 365) L)
      ⟨"monthly",
       [("previous_month", prevMonthRevenue), ("quarterly_avg", quarterlyAvg),
        ("same_month_last_year", lastYearRevenue)], none⟩
    else
      ⟨"long_period", [],
       some ("Limited comparison available for extended periods (" ++
         toString L ++ " days)")⟩
  { pd with baselines := attachDiffs current_revenue pd.baselines }

/-- Result record of `check_data_availability`. -/
structure Availability where
  available_dates : List ℤ
  future_dates : List ℤ
  total_requested : Nat
  available_count : Nat
  future_count : Nat
deriving DecidableEq

/-- `check_data_availability`: parse each requested date string (skipping
the unparseable ones) and classify it as available (`≤ current`) or
future (`> current`); the parser is abstracted as `parse`. -/
def checkDataAvailability (parse : String → Option ℤ) (current : ℤ)
    (dates : List String) : Availability :=
  let r := dates.foldl
    (fun (acc : List ℤ × List ℤ) s =>
      match parse s with
      | none => acc
      | some d => if d ≤ current then (acc.1 ++ [d], acc.2) else (acc.1, acc.2 ++ [d]))
    ([], [])
  ⟨r.1, r.2, dates.length, r.1.length, r.2.length⟩

/-- The availability gate of `handle_message` / `handle_date_button`:
aggregation runs only when at least one requested date is available, and
then only on the available dates (re-rendered through `fmtDate`);
`none` means no aggregation is performed at all. -/
def datesForAnalysis (parse : String → Option ℤ) (fmtDate : ℤ → String)
    (current : ℤ) (dates : List String) : Option (List String) :=
  let av := checkDataAvailability parse current dates
  if av.available_count > 0 then some (av.available_dates.map fmtDate)
  else none

/-- The order-independent projection of the aggregation state: the revenue
totals, the customer set and the per-category product totals (the fields
whose accumulation is commutative). -/
structure AggTotals where
  total_revenue : ℚ
  paid_revenue : ℚ
  unpaid_revenue : ℚ
  customers : Finset String
  pouches : Counts4
  tubs : Counts4
  paid_pouches : Counts4
  paid_tubs : Counts4
deriving DecidableEq

/-- Project the commutative totals out of the full aggregation state. -/
def totalsOf (m : PeriodMetrics) : AggTotals :=
  ⟨m.total_revenue, m.paid_revenue, m.unpaid_revenue, m.customers,
   m.pouches, m.tubs, m.paid_pouches, m.paid_tubs⟩

/-- The action of one aggregation step on the commutative totals alone. -/
def totalsStep (cols : ColConfig) (targets : List String) (t : AggTotals)
    (row : List String) : AggTotals :=
  if isCandidateOrder row && dateMatches (cellAt row cols.dateCol) targets then
    let name := customerName cols row
    let price := parsePrice (cellAt row cols.priceCol)
    let paid := isPaid cols row
    ⟨t.total_revenue + price, t.paid_revenue + (if paid then price else 0),
     t.unpaid_revenue + (if paid then 0 else price), insert name t.customers,
     addPouches t.pouches row, addTubs t.tubs row,
     if paid then addPouches t.paid_pouches row else t.paid_pouches,
     if paid then addTubs t.paid_tubs row else t.paid_tubs⟩
  else t

/-- A concrete date-format expansion for evaluation: day `d` is rendered
as the single string `D<d>`. -/
def fmtD (d : ℤ) : List String := ["D" ++ toString d]

/-- A concrete ledger row (28 cells): an order dated `D3`, customer
`Cust`, paid, price `100`. -/
def rowLW : List String :=
  ["", "", "D3", "Cust", "", "", "", "Paid", "", "", "", "", "", "",
   "", "", "", "", "", "", "", "", "", "", "", "", "", "100"]

/-- A second concrete ledger row: an order dated `D3`, customer `Other`,
unpaid, price `40`, one cheese pouch. -/
def rowB : List String :=
  ["", "", "D3", "Other", "", "", "", "", "", "", "", "", "", "1",
   "", "", "", "", "", "", "", "", "", "", "", "", "", "40"]

/-- A trivial date-format expansion producing no formats. -/
def fmtEmpty : ℤ → List String := fun _ => []

/-- A concrete date-string parser for evaluation: `"a"` parses to day 0,
`"b"` to day 5, everything else fails. -/
def parseAB (s : String) : Option ℤ :=
  if s = "a" then some 0 else if s = "b" then some 5 else none

/-- A trivial date renderer for evaluation. -/
def fmtDate0 : ℤ → String := fun _ => "d"


lemma startsWithB_iff (needle hay : List Char) :
    startsWithB hay needle = true ↔ ∃ post, hay = needle ++ post := by
  induction needle generalizing hay with
  | nil =>
    simp [startsWithB]
  | cons b bs ih =>
    cases hay with
    | nil => simp [startsWithB]
    | cons a as =>
      simp only [startsWithB, Bool.and_eq_true, beq_iff_eq, ih, List.cons_append,
        List.cons.injEq]
      constructor
      · rintro ⟨rfl, post, rfl⟩
        exact ⟨post, rfl, rfl⟩
      · rintro ⟨post, rfl, rfl⟩
        exact ⟨rfl, post, rfl⟩

lemma subListB_iff (hay needle : List Char) :
    subListB hay needle = true ↔ ∃ pre post, hay = pre ++ needle ++ post := by
  induction hay with
  | nil =>
    simp only [subListB, List.isEmpty_iff]
    constructor
    · rintro rfl
      exact ⟨[], [], rfl⟩
    · rintro ⟨pre, post, h⟩
      rcases List.append_eq_nil.mp h.symm with ⟨h1, h2⟩
      exact (List.append_eq_nil.mp h1).2
  | cons c t ih =>
    simp only [subListB, Bool.or_eq_true, startsWithB_iff, ih]
    constructor
    · rintro (⟨post, h⟩ | ⟨pre, post, h⟩)
      · exact ⟨[], post, by simpa using h⟩
      · exact ⟨c :: pre, post, by simp [h]⟩
    · rintro ⟨pre, post, h⟩
      cases pre with
      | nil => exact Or.inl ⟨post, by simpa using h⟩
      | cons x xs =>
        rcases List.cons.inj h with ⟨rfl, h2⟩
        exact Or.inr ⟨xs, post, h2⟩

lemma containsSubB_iff (hay needle : String) :
    containsSubB hay needle = true ↔
      ∃ pre post, hay.data = pre ++ needle.data ++ post :=
  subListB_iff hay.data needle.data

/-- C7: date matching — a ledger date matches the targets iff some target
equals the trimmed date exactly, or is a substring of it, or contains it;
and a row whose date matches no target is not folded into the metrics. -/
theorem date_matching_contract (cols : ColConfig) (targets : List String)
    (m : PeriodMetrics) (d : String) (row : List String) :
    (dateMatches d targets = true ↔
      ∃ t ∈ targets, strTrim d = t ∨
        (∃ pre post, (strTrim d).data = pre ++ t.data ++ post) ∨
        (∃ pre post, t.data = pre ++ (strTrim d).data ++ post)) ∧
    (dateMatches (cellAt row cols.dateCol) targets = false →
      aggRow cols targets m row = m) := by
  constructor
  · simp only [dateMatches, List.any_eq_true, Bool.or_eq_true, beq_iff_eq,
      containsSubB_iff]
    constructor
    · rintro ⟨t, ht, h⟩
      exact ⟨t, ht, or_assoc.mp h⟩
    · rintro ⟨t, ht, h⟩
      exact ⟨t, ht, or_assoc.mpr h⟩
  · intro h
    simp [aggRow, h]

/-- C7 witness. -/
theorem date_matching_contract_witness :
    aggRow defaultCols ["y"] initMetrics ["", "", "x"] = initMetrics :=
  (date_matching_contract defaultCols ["y"] initMetrics "x" ["", "", "x"]).2
    (by decide)

lemma parseDecimal_nonneg (l : List Char) (q : ℚ) (h : parseDecimal l = some q) :
    0 ≤ q := by
  unfold parseDecimal at h
  split at h
  · simp only [Option.some.injEq] at h
    subst h
    positivity
  · exact absurd h (by simp)

lemma parsePrice_nonneg (s : String) : 0 ≤ parsePrice s := by
  unfold parsePrice
  split
  · exact le_refl 0
  · dsimp only
    split
    · exact le_refl 0
    · cases h : parseDecimal ((firstNumRun s.data).filter fun c => !(c == ',')) with
      | none => simp [h]
      | some q => simp only [h]; exact parseDecimal_nonneg _ q h

/-- C5: price parsing is total, non-negative, yields 0 on the empty cell,
and parses `"₱1,234.50 extra"` to 1234.50. -/
theorem price_parsing_safe :
    (∀ s : String, 0 ≤ parsePrice s) ∧ parsePrice "" = 0 ∧
      parsePrice "₱1,234.50 extra" = 1234.5 := by
  refine ⟨parsePrice_nonneg, rfl, ?_⟩
  have h1 : digitsToNat "1234".data = 1234 := by decide
  have h2 : digitsToNat "50".data = 50 := by decide
  have h : parsePrice "₱1,234.50 extra"
      = ((digitsToNat "1234".data : ℚ) +
          (digitsToNat "50".data : ℚ) / 10 ^ ("50".data.length)) := rfl
  rw [h, h1, h2]
  norm_num

/-- C3: a row is a candidate order iff it has at least 12 cells and at
least one of the date, name and summary cells is non-empty after trimming;
shorter rows and all-empty rows are excluded before any further parsing. -/
theorem row_validity (cols : ColConfig) (targets : List String)
    (m : PeriodMetrics) (row : List String) :
    (isCandidateOrder row = true ↔
      12 ≤ row.length ∧ (strTrim (cellAt row 2) ≠ "" ∨
        strTrim (cellAt row 3) ≠ "" ∨ strTrim (cellAt row 11) ≠ "")) ∧
    (row.length < 12 → isCandidateOrder row = false) ∧
    (isCandidateOrder row = false → aggRow cols targets m row = m) := by
  have hiff : isCandidateOrder row = true ↔
      12 ≤ row.length ∧ (strTrim (cellAt row 2) ≠ "" ∨
        strTrim (cellAt row 3) ≠ "" ∨ strTrim (cellAt row 11) ≠ "") := by
    simp only [isCandidateOrder, Bool.and_eq_true, Bool.or_eq_true,
      Bool.not_eq_true', beq_eq_false_iff_ne, decide_eq_true_eq]
    constructor
    · rintro ⟨h1, h2⟩
      exact ⟨by omega, or_assoc.mp h2⟩
    · rintro ⟨h1, h2⟩
      exact ⟨by omega, or_assoc.mpr h2⟩
  refine ⟨hiff, ?_, ?_⟩
  · intro h
    rcases hb : isCandidateOrder row with _ | _
    · rfl
    · exact absurd (hiff.mp hb).1 (by omega)
  · intro h
    simp [aggRow, h]

/-- C3 witness. -/
theorem row_validity_witness :
    isCandidateOrder ["a", "b", "c", "d", "e"] = false ∧
      aggRow defaultCols [] initMetrics ["a", "b", "c", "d", "e"] = initMetrics := by
  have h := (row_validity defaultCols [] initMetrics ["a", "b", "c", "d", "e"]).2.1
    (by decide)
  exact ⟨h, (row_validity defaultCols [] initMetrics ["a", "b", "c", "d", "e"]).2.2 h⟩

lemma aggRow_inv (cols : ColConfig) (targets : List String)
    (m : PeriodMetrics) (row : List String)
    (h : m.total_revenue = m.paid_revenue + m.unpaid_revenue) :
    (aggRow cols targets m row).total_revenue =
      (aggRow cols targets m row).paid_revenue +
        (aggRow cols targets m row).unpaid_revenue := by
  unfold aggRow
  split
  · by_cases hp : isPaid cols row <;> simp [hp, h] <;> ring
  · exact h

/-- C4: for every aggregation over any rows and any target date set,
`total_revenue = paid_revenue + unpaid_revenue`: each matched order's
parsed price lands in `total_revenue` and in exactly one of the two. -/
theorem revenue_split_invariant (cols : ColConfig) (targets : List String)
    (rows : List (List String)) :
    (aggregatePeriod cols targets rows).total_revenue =
      (aggregatePeriod cols targets rows).paid_revenue +
        (aggregatePeriod cols targets rows).unpaid_revenue := by
  suffices h : ∀ m : PeriodMetrics,
      m.total_revenue = m.paid_revenue + m.unpaid_revenue →
      (rows.foldl (aggRow cols targets) m).total_revenue =
        (rows.foldl (aggRow cols targets) m).paid_revenue +
          (rows.foldl (aggRow cols targets) m).unpaid_revenue by
    exact h initMetrics (by simp [initMetrics])
  induction rows with
  | nil => intro m hm; exact hm
  | cons r rs ih =>
    intro m hm
    exact ih _ (aggRow_inv cols targets m r hm)

lemma totalsOf_aggRow (cols : ColConfig) (targets : List String)
    (m : PeriodMetrics) (row : List String) :
    totalsOf (aggRow cols targets m row) = totalsStep cols targets (totalsOf m) row := by
  unfold aggRow totalsStep totalsOf
  split <;> rfl

lemma totalsOf_foldl (cols : ColConfig) (targets : List String)
    (rows : List (List String)) (m : PeriodMetrics) :
    totalsOf (rows.foldl (aggRow cols targets) m) =
      rows.foldl (totalsStep cols targets) (totalsOf m) := by
  induction rows generalizing m with
  | nil => rfl
  | cons r rs ih => simp [List.foldl_cons, ih, totalsOf_aggRow]

lemma addCounts_right_comm (c : Counts4) (a b : List String)
    (i0 i1 i2 i3 : Nat) :
    addCounts (addCounts c a i0 i1 i2 i3) b i0 i1 i2 i3 =
      addCounts (addCounts c b i0 i1 i2 i3) a i0 i1 i2 i3 := by
  simp only [addCounts, Counts4.mk.injEq]
  omega

lemma totalsStep_right_comm (cols : ColConfig) (targets : List String)
    (t : AggTotals) (a b : List String) :
    totalsStep cols targets (totalsStep cols targets t a) b =
      totalsStep cols targets (totalsStep cols targets t b) a := by
  unfold totalsStep
  by_cases ha : (isCandidateOrder a && dateMatches (cellAt a cols.dateCol) targets) = true <;>
    by_cases hb : (isCandidateOrder b && dateMatches (cellAt b cols.dateCol) targets) = true <;>
      simp only [ha, hb, if_true, if_false, Bool.not_eq_true] at * <;>
        try rfl
  by_cases hpa : isPaid cols a <;> by_cases hpb : isPaid cols b <;>
    simp only [hpa, hpb, if_true, if_false, addPouches, addTubs, AggTotals.mk.injEq] <;>
      refine ⟨by ring, by ring, by ring, Finset.Insert.comm _ _ _,
        addCounts_right_comm _ _ _ _ _ _ _, addCounts_right_comm _ _ _ _ _ _ _, ?_, ?_⟩ <;>
        first
          | exact addCounts_right_comm _ _ _ _ _ _ _
          | rfl

/-- C8: aggregation totals are order-independent — permuting the ledger
rows leaves the revenue totals, the customer set and every per-category
pouch/tub total unchanged. -/
theorem aggregation_commutative (cols : ColConfig) (targets : List String)
    (rows rows' : List (List String)) (h : rows.Perm rows') :
    totalsOf (aggregatePeriod cols targets rows) =
      totalsOf (aggregatePeriod cols targets rows') := by
  unfold aggregatePeriod
  rw [totalsOf_foldl, totalsOf_foldl]
  exact h.foldl_eq' (fun a _ b _ t => totalsStep_right_comm cols targets t a b) _

/-- C8 witness. -/
theorem aggregation_commutative_witness :
    totalsOf (aggregatePeriod defaultCols ["D3"] [rowLW, rowB]) =
      totalsOf (aggregatePeriod defaultCols ["D3"] [rowB, rowLW]) :=
  aggregation_commutative defaultCols ["D3"] [rowLW, rowB] [rowB, rowLW] (by decide)

lemma sevenDayFoldIdx (fmt : ℤ → List String) (cols : ColConfig)
    (rows : List (List String)) (now : ℤ) (ks : List Nat) (t : ℚ) (v : Nat) :
    ks.foldl
      (fun (acc : ℚ × Nat) (k : Nat) =>
        let targets := fmt (now - (k : ℤ))
        if dayHasOrders cols rows targets then
          (acc.1 + calculateRevenueForDates cols rows targets, acc.2 + 1)
        else acc) (t, v) =
      (t + ((ks.filter fun (k : Nat) => dayHasOrders cols rows (fmt (now - (k : ℤ)))).map
          fun (k : Nat) => calculateRevenueForDates cols rows (fmt (now - (k : ℤ)))).sum,
       v + (ks.filter fun (k : Nat) => dayHasOrders cols rows (fmt (now - (k : ℤ)))).length) := by
  induction ks generalizing t v with
  | nil => simp
  | cons k ks ih =>
    by_cases h : dayHasOrders cols rows (fmt (now - (k : ℤ))) = true
    · simp [h, ih, Prod.ext_iff]
      constructor
      · ring
      · omega
    · simp [h, ih]

/-- C2: the trailing 7-day average divides the summed paid revenue of the
days (among the last 7, current day included) that have at least one
matching order by the number of such days, and is 0 when there are none;
a day with no matching order is excluded from both sum and count. -/
theorem trailing_average_excludes_empty_days (fmt : ℤ → List String)
    (cols : ColConfig) (rows : List (List String)) (now : ℤ) :
    calculate7DayAverage fmt cols rows now =
      (let days := (List.range 7).map fun (k : Nat) => fmt (now - (k : ℤ));
       let contrib := days.filter fun targets => dayHasOrders cols rows targets;
       if contrib = [] then 0
       else (contrib.map (calculateRevenueForDates cols rows)).sum /
         (contrib.length : ℚ)) := by
  unfold calculate7DayAverage
  rw [sevenDayFoldIdx]
  simp only [zero_add, List.filter_map, List.map_map, List.length_map,
    List.map_eq_nil_iff, Function.comp_def]
  rcases eq_or_ne ((List.range 7).filter
      fun (k : Nat) => dayHasOrders cols rows (fmt (now - (k : ℤ)))) [] with h | h
  · rw [h]
    simp
  · rw [if_neg h, if_pos (by simpa [List.length_pos] using h)]

lemma calcRevFold_nonneg (cols : ColConfig) (rows : List (List String))
    (targets : List String) (a : ℚ) (h : 0 ≤ a) :
    0 ≤ rows.foldl
      (fun acc row =>
        if isCandidateOrder row && dateMatches (cellAt row cols.dateCol) targets
            && isPaid cols row then
          acc + parsePrice (cellAt row cols.priceCol)
        else acc) a := by
  induction rows generalizing a with
  | nil => exact h
  | cons r rs ih =>
    rw [List.foldl_cons]
    split
    · exact ih _ (add_nonneg h (parsePrice_nonneg _))
    · exact ih _ h

lemma calculateRevenueForDates_nonneg (cols : ColConfig)
    (rows : List (List String)) (targets : List String) :
    0 ≤ calculateRevenueForDates cols rows targets :=
  calcRevFold_nonneg cols rows targets 0 le_rfl

lemma collectPositive_eq_filter (l : List ℚ) :
    collectPositive l = l.filter fun r => decide (0 < r) := by
  unfold collectPositive
  suffices h : ∀ acc : List ℚ,
      l.foldl (fun acc r => if r > 0 then acc ++ [r] else acc) acc =
        acc ++ l.filter fun r => decide (0 < r) by
    simpa using h []
  induction l with
  | nil => simp
  | cons r rs ih =>
    intro acc
    by_cases h : 0 < r <;> simp [h, ih]

/-- C9: every rolling-average baseline keeps only candidate windows with
positive revenue — a zero-revenue window is excluded from both the sum and
the divisor; window revenues are never negative, and the average is 0 when
every candidate window has zero revenue. -/
theorem rolling_average_skips_zero_windows (cols : ColConfig)
    (rows : List (List String)) (targets : List String) (l : List ℚ) :
    0 ≤ calculateRevenueForDates cols rows targets ∧
    posAvg l =
      (let p := l.filter fun r => decide (0 < r);
       if p = [] then 0 else p.sum / (p.length : ℚ)) ∧
    ((∀ r ∈ l, r ≤ 0) → posAvg l = 0) := by
  have hp : posAvg l =
      (let p := l.filter fun r => decide (0 < r);
       if p = [] then 0 else p.sum / (p.length : ℚ)) := by
    unfold posAvg
    rw [collectPositive_eq_filter]
    rcases eq_or_ne (l.filter fun r => decide (0 < r)) [] with h | h
    · simp [h]
    · rw [if_pos (by simpa [List.length_pos] using h)]
      simp [h]
  refine ⟨calculateRevenueForDates_nonneg cols rows targets, hp, fun hall => ?_⟩
  rw [hp]
  have h0 : (l.filter fun r => decide (0 < r)) = [] := by
    rw [List.filter_eq_nil_iff]
    intro r hr
    simpa using not_lt.mpr (hall r hr)
  simp [h0]

/-- C9 witness. -/
theorem rolling_average_skips_zero_windows_witness :
    posAvg [(0 : ℚ), 0, 0, 0] = 0 :=
  (rolling_average_skips_zero_windows defaultCols [] [] [(0 : ℚ), 0, 0, 0]).2.2
    (by decide)

lemma attachDiffs_nil (cur : ℚ) : attachDiffs cur [] = [] := by
  unfold attachDiffs
  split <;> simp

/-- C6: the Contextual Comparator classifies purely by the length of the
requested date list — 1 day is `single_day`, 2–13 days `short_range`,
exactly 14 days `two_weeks` (not `short_range` or `monthly`), 15–32 days
`monthly`, and any other length the `long_period` branch, which computes
no baseline and carries a limited-comparison note. -/
theorem period_length_classification (fmt : ℤ → List String)
    (cols : ColConfig) (rows : List (List String)) (now : ℤ)
    (dates : List ℤ) (cur : ℚ) :
    (dates.length = 1 →
      (getContextualPerformance fmt cols rows now dates cur).context = "single_day") ∧
    (2 ≤ dates.length ∧ dates.length ≤ 13 →
      (getContextualPerformance fmt cols rows now dates cur).context = "short_range") ∧
    (dates.length = 14 →
      (getContextualPerformance fmt cols rows now dates cur).context = "two_weeks" ∧
      (getContextualPerformance fmt cols rows now dates cur).context ≠ "short_range" ∧
      (getContextualPerformance fmt cols rows now dates cur).context ≠ "monthly") ∧
    (15 ≤ dates.length ∧ dates.length ≤ 32 →
      (getContextualPerformance fmt cols rows now dates cur).context = "monthly") ∧
    (dates.length = 0 ∨ 32 < dates.length →
      (getContextualPerformance fmt cols rows now dates cur).context = "long_period" ∧
      (getContextualPerformance fmt cols rows now dates cur).baselines = [] ∧
      (getContextualPerformance fmt cols rows now dates cur).note.isSome = true) := by
  refine ⟨?_, ?_, ?_, ?_, ?_⟩
  · intro h
    simp [getContextualPerformance, h]
  · intro h
    have h1 : ¬ dates.length = 1 := by omega
    simp [getContextualPerformance, h1, h]
  · intro h
    have h1 : ¬ dates.length = 1 := by omega
    have h2 : ¬ (2 ≤ dates.length ∧ dates.length ≤ 13) := by omega
    refine ⟨?_, ?_, ?_⟩ <;> simp [getContextualPerformance, h1, h2, h]
  · intro h
    have h1 : ¬ dates.length = 1 := by omega
    have h2 : ¬ (2 ≤ dates.length ∧ dates.length ≤ 13) := by omega
    have h3 : ¬ dates.length = 14 := by omega
    simp [getContextualPerformance, h1, h2, h3, h]
  · intro h
    have h1 : ¬ dates.length = 1 := by omega
    have h2 : ¬ (2 ≤ dates.length ∧ dates.length ≤ 13) := by omega
    have h3 : ¬ dates.length = 14 := by omega
    have h4 : ¬ (15 ≤ dates.length ∧ dates.length ≤ 32) := by omega
    refine ⟨?_, ?_, ?_⟩ <;>
      simp [getContextualPerformance, h1, h2, h3, h4, attachDiffs_nil]

/-- C6 witness: a 14-day request selects the `two_weeks` branch. -/
theorem period_length_classification_witness :
    (getContextualPerformance fmtEmpty defaultCols [] 0
        [0, 1, 2, 3, 4, 5, 6, 7, 8, 9, 10, 11, 12, 13] 0).context = "two_weeks" :=
  ((period_length_classification fmtEmpty defaultCols [] 0
      [0, 1, 2, 3, 4, 5, 6, 7, 8, 9, 10, 11, 12, 13] 0).2.2.1 (by decide)).1

lemma filter_length_split {α : Type} (p : α → Bool) (l : List α) :
    (l.filter p).length + (l.filter fun a => !(p a)).length = l.length := by
  induction l with
  | nil => rfl
  | cons a l ih =>
    by_cases h : p a <;> simp [h, ← ih] <;> omega

lemma availFold (parse : String → Option ℤ) (current : ℤ) (ds : List String)
    (a f : List ℤ) :
    ds.foldl
      (fun (acc : List ℤ × List ℤ) s =>
        match parse s with
        | none => acc
        | some d => if d ≤ current then (acc.1 ++ [d], acc.2)
            else (acc.1, acc.2 ++ [d])) (a, f) =
      (a ++ (ds.filterMap parse).filter (fun d => decide (d ≤ current)),
       f ++ (ds.filterMap parse).filter (fun d => !decide (d ≤ current))) := by
  induction ds generalizing a f with
  | nil => simp
  | cons s ds ih =>
    rw [List.foldl_cons, List.filterMap_cons]
    cases hp : parse s with
    | none => simp [ih]
    | some d =>
      by_cases hd : d ≤ current <;> simp [hd, ih]

/-- C10: `check_data_availability` splits the parseable requested dates
into those on or before the current day and those after it, the two counts
account for every parseable date, and aggregation runs exactly when the
available subset is non-empty — and then only on that subset. -/
theorem availability_partition (parse : String → Option ℤ)
    (fmtDate : ℤ → String) (current : ℤ) (dates : List String) :
    (checkDataAvailability parse current dates).available_dates =
        (dates.filterMap parse).filter (fun d => decide (d ≤ current)) ∧
    (checkDataAvailability parse current dates).future_dates =
        (dates.filterMap parse).filter (fun d => !decide (d ≤ current)) ∧
    (checkDataAvailability parse current dates).available_count +
        (checkDataAvailability parse current dates).future_count =
        (dates.filterMap parse).length ∧
    ((checkDataAvailability parse current dates).available_count = 0 →
        datesForAnalysis parse fmtDate current dates = none) ∧
    (0 < (checkDataAvailability parse current dates).available_count →
        datesForAnalysis parse fmtDate current dates =
          some ((checkDataAvailability parse current dates).available_dates.map fmtDate)) := by
  have hav : checkDataAvailability parse current dates =
      ⟨(dates.filterMap parse).filter (fun d => decide (d ≤ current)),
       (dates.filterMap parse).filter (fun d => !decide (d ≤ current)),
       dates.length,
       ((dates.filterMap parse).filter (fun d => decide (d ≤ current))).length,
       ((dates.filterMap parse).filter (fun d => !decide (d ≤ current))).length⟩ := by
    unfold checkDataAvailability
    rw [availFold]
    simp
  refine ⟨by rw [hav], by rw [hav], ?_, ?_, ?_⟩
  · rw [hav]
    exact filter_length_split _ _
  · intro h
    unfold datesForAnalysis
    simp [h]
  · intro h
    unfold datesForAnalysis
    simp [h]

/-- C10 witness. -/
theorem availability_partition_witness :
    datesForAnalysis parseAB fmtDate0 0 ["a", "b", "c"] =
      some ((checkDataAvailability parseAB 0 ["a", "b", "c"]).available_dates.map fmtDate0) :=
  (availability_partition parseAB fmtDate0 0 ["a", "b", "c"]).2.2.2.2 (by decide)

/-- C1 (amended): a percent-difference entry is attached for a baseline
exactly when both the baseline and the current revenue are positive; when
the current revenue is not positive the baseline list is returned
unchanged (no differences at all), and every attached difference entry
stems from some positive baseline. -/
theorem percent_diff_needs_positive_current (cur b : ℚ)
    (bs : List (String × ℚ)) (k : String) :
    ((k, b) ∈ bs → 0 < cur → 0 < b →
      (k ++ "_diff", (cur - b) / b * 100) ∈ attachDiffs cur bs) ∧
    (cur ≤ 0 → attachDiffs cur bs = bs) ∧
    (∀ e ∈ attachDiffs cur bs,
      e ∈ bs ∨ ∃ k' b', (k', b') ∈ bs ∧ 0 < b' ∧
        e = (k' ++ "_diff", (cur - b') / b' * 100)) := by
  refine ⟨?_, ?_, ?_⟩
  · intro hm hc hb
    unfold attachDiffs
    rw [if_pos hc]
    refine List.mem_append.mpr (Or.inr ?_)
    exact List.mem_map.mpr ⟨(k, b), List.mem_filter.mpr ⟨hm, by simpa using hb⟩, rfl⟩
  · intro hc
    unfold attachDiffs
    rw [if_neg (not_lt.mpr hc)]
  · intro e he
    unfold attachDiffs at he
    split at he
    · rcases List.mem_append.mp he with h | h
      · exact Or.inl h
      · rcases List.mem_map.mp h with ⟨⟨k', b'⟩, hmem, rfl⟩
        rcases List.mem_filter.mp hmem with ⟨hm, hpos⟩
        exact Or.inr ⟨k', b', hm, by simpa using hpos, rfl⟩
    · exact Or.inl he

/-- C1 witness. -/
theorem percent_diff_needs_positive_current_witness :
    ("previous_period" ++ "_diff", ((10 : ℚ) - 5) / 5 * 100) ∈
      attachDiffs 10 [("previous_period", 5)] :=
  (percent_diff_needs_positive_current 10 5 [("previous_period", 5)]
      "previous_period").1 (by decide) (by decide) (by decide)

lemma attachDiffs_nonpos (cur : ℚ) (bs : List (String × ℚ)) (h : ¬ cur > 0) :
    attachDiffs cur bs = bs := by
  unfold attachDiffs
  rw [if_neg h]

lemma parsePrice_100 : parsePrice "100" = 100 := by
  have h : parsePrice "100"
      = ((digitsToNat "100".data : ℚ) + (digitsToNat "".data : ℚ) / 10 ^ ("".data.length)) := rfl
  have h1 : digitsToNat "100".data = 100 := by decide
  have h2 : digitsToNat "".data = 0 := by decide
  rw [h, h1, h2]
  norm_num

/-- C1 counterexample: with current revenue 0 and a positive baseline
(the same day one week earlier had revenue 100), `get_contextual_performance`
attaches no percent difference — the positivity of the baseline alone does
not produce one, contradicting the claim. -/
theorem contextual_diff_counterexample :
    ((getContextualPerformance fmtD defaultCols [rowLW] 50 [10] 0).baselines.lookup
        "last_week_same_day" = some 100) ∧
    ((getContextualPerformance fmtD defaultCols [rowLW] 50 [10] 0).baselines.lookup
        "last_week_same_day_diff" = none) ∧ (0 : ℚ) < 100 := by
  have hrev : calculateRevenueForDates defaultCols [rowLW] (fmtD (10 - 7)) = 100 := by
    rw [show calculateRevenueForDates defaultCols [rowLW] (fmtD (10 - 7))
        = 0 + parsePrice "100" from rfl, parsePrice_100]
    norm_num
  have hbs : (getContextualPerformance fmtD defaultCols [rowLW] 50 [10] 0).baselines
      = attachDiffs 0
        [("seven_day_avg", calculate7DayAverage fmtD defaultCols [rowLW] 50),
         ("last_week_same_day", calculateRevenueForDates defaultCols [rowLW] (fmtD (10 - 7))),
         ("weekday_pattern_avg", posAvg ((List.range 4).map (fun (i : Nat) =>
            calculateRevenueForDates defaultCols [rowLW] (fmtD (10 - 7 * ((i : ℤ) + 1))))))] := rfl
  rw [hbs, attachDiffs_nonpos 0 _ (by norm_num), hrev]
  refine ⟨?_, ?_, by norm_num⟩
  · simp [List.lookup]
  · simp [List.lookup]

end Preetos
